import Mathlib

/-!
Shallow embedding of the chat client in `src/components/ui/Chat.tsx`.

The component keeps an ordered list of `Message` values, a session identifier
and a WebSocket reference.  The socket `onmessage` handler dispatches on the
payload (`error` field first, then the `event` discriminant) and updates the
message list; `sendMessage` appends a user message plus a loading placeholder
and transmits an envelope, or appends a connection-lost notice when the socket
is unavailable; `onclose` retries up to `maxReconnectAttempts` times and then
appends a terminal notice.

JavaScript truthiness of optional string fields (`data.error`, `data.answer`,
`sessionId`, `data.audio_url`) is modelled by `jsTruthy`/`jsOr`: absent
(`none`) and the empty string are falsy.
-/

/-- Source tag of a message: `'websocket' | 'voice' | 'user'` in `Chat.tsx`. -/
inductive Source where
  | websocket
  | voice
  | user
deriving DecidableEq

/-- The `Message` record of `Chat.tsx`.  Optional JS fields become `Option`;
the optional `loading` flag is a `Bool` defaulting to `false` (absent and
`false` are indistinguishable to every truthiness test in the component). -/
structure Message where
  sender : String
  text : String
  audio : Option String := none
  loading : Bool := false
  avatarUrl : Option String := none
  source : Option Source := none
deriving DecidableEq

/-- JS truthiness of an optional string: `undefined`/`null` and `""` are falsy. -/
def jsTruthy : Option String → Bool
  | none => false
  | some s => s != ""

/-- JS `a || b` for an optional string `a` and a string default `b`. -/
def jsOr (a : Option String) (b : String) : String :=
  match a with
  | none => b
  | some s => if s == "" then b else s

/-- The fallback answer text used by the `done` handler. -/
def fallbackAnswer : String := "I couldn't generate an answer."

/-- Message appended by `sendMessage` when the socket is not open. -/
def connLostMsg : Message :=
  { sender := "Bot", text := "Connection lost. Please try again.",
    loading := false, source := some Source.websocket }

/-- Terminal message appended by `onclose` after the reconnect ceiling. -/
def terminalMsg : Message :=
  { sender := "Bot", text := "WebSocket connection lost. Please refresh the page.",
    loading := false, source := some Source.websocket }

/-- The user message appended by `sendMessage`. -/
def mkUserMessage (text : String) : Message :=
  { sender := "You", text := text, source := some Source.user }

/-- The loading bot placeholder appended by `sendMessage`. -/
def loadingPlaceholder : Message :=
  { sender := "Bot", text := "", loading := true, source := some Source.websocket }

/-- The check `lastMessage?.loading && lastMessage?.source === 'websocket'`. -/
def isLoadingWs (m : Message) : Bool :=
  m.loading && m.source == some Source.websocket

/-- The guard `updated.length > 0 && last?.loading && last?.source === 'websocket'`
used by the `error`, `partial_text`, `done` and `audio_error` branches. -/
def lastIsLoadingWs (msgs : List Message) : Bool :=
  match msgs.getLast? with
  | some m => isLoadingWs m
  | none => false

/-- The `data.error` branch of `onmessage` (lines 61-80): replace a trailing
loading websocket message with an error bot message, otherwise do nothing. -/
def errorUpdate (e : String) (msgs : List Message) : List Message :=
  if lastIsLoadingWs msgs then
    msgs.dropLast ++
      [{ sender := "Bot", text := "Error: " ++ e,
         loading := false, source := some Source.websocket }]
  else msgs

/-- The `partial_text` branch of `onmessage` (lines 87-113): extend the
trailing loading websocket message, or create a fresh one. -/
def partialTextUpdate (t : String) (msgs : List Message) : List Message :=
  match msgs.getLast? with
  | some lastMessage =>
    if isLoadingWs lastMessage then
      msgs.dropLast ++
        [{ lastMessage with text := lastMessage.text ++ t, loading := true }]
    else
      msgs ++ [{ sender := "Bot", text := t, loading := true,
                 source := some Source.websocket }]
  | none =>
    msgs ++ [{ sender := "Bot", text := t, loading := true,
               source := some Source.websocket }]

/-- The `done` branch of `onmessage` (lines 115-150): finalize the trailing
loading websocket message, or append a fresh finalized message.  In both
branches the text is `data.answer || "I couldn't generate an answer."`. -/
def doneUpdate (answer : Option String) (audioUrl : Option String)
    (msgs : List Message) : List Message :=
  let finalMsg : Message :=
    { sender := "Bot", text := jsOr answer fallbackAnswer, audio := audioUrl,
      loading := false, source := some Source.websocket }
  if lastIsLoadingWs msgs then msgs.dropLast ++ [finalMsg]
  else msgs ++ [finalMsg]

/-- The scan predicate of the `audio_ready` branch:
`sender === 'Bot' && !loading && source === 'websocket'`. -/
def isFinalBotWs (m : Message) : Bool :=
  m.sender == "Bot" && !m.loading && m.source == some Source.websocket

/-- Set the audio of the first matching message of a list (used on the
reversed list to mirror the backwards `for` loop with `break`). -/
def setAudioFirst (audioUrl : Option String) : List Message → List Message
  | [] => []
  | m :: rest =>
    if isFinalBotWs m then { m with audio := audioUrl } :: rest
    else m :: setAudioFirst audioUrl rest

/-- The `audio_ready` branch of `onmessage` (lines 152-177): walk backwards
and attach the audio reference to the first finalized websocket bot message. -/
def audioReadyUpdate (audioUrl : Option String) (msgs : List Message) : List Message :=
  (setAudioFirst audioUrl msgs.reverse).reverse

/-- The `audio_error` branch of `onmessage` (lines 179-199). -/
def audioErrorUpdate (m : String) (msgs : List Message) : List Message :=
  if lastIsLoadingWs msgs then
    msgs.dropLast ++
      [{ sender := "Bot", text := "Error generating audio: " ++ m,
         loading := false, source := some Source.websocket }]
  else msgs

/-- JS `s.startsWith(pre)`: `pre` is a prefix of `s` (on the character
sequences of the two strings). -/
def jsStartsWith (s pre : String) : Bool :=
  pre.data.isPrefixOf s.data

/-- Resolution of `data.audio_url` into an absolute URL (lines 117-121 and
154-158): keep it if it starts with `http`, prefix `API_BASE` if truthy,
otherwise `undefined`. -/
def resolveAudioUrl (apiBase : String) (u : Option String) : Option String :=
  match u with
  | none => none
  | some url =>
    if jsStartsWith url "http" then some url
    else if url == "" then none
    else some (apiBase ++ url)

/-- A parsed WebSocket payload: the fields the handler reads.  Absent JS
fields are `none` (for the truthiness-tested ones) or the empty default. -/
structure Payload where
  error : Option String := none
  event : Option String := none
  text : String := ""
  answer : Option String := none
  audio_url : Option String := none
  message : String := ""
deriving DecidableEq

/-- The dispatch of `onmessage` over a parsed payload: `data.error` first,
then the `event` discriminant; unknown events are dropped. -/
def onParsed (apiBase : String) (p : Payload) (msgs : List Message) : List Message :=
  if jsTruthy p.error then errorUpdate (p.error.getD "") msgs
  else if p.event = some "processing" then msgs
  else if p.event = some "partial_text" then partialTextUpdate p.text msgs
  else if p.event = some "done" then
    doneUpdate p.answer (resolveAudioUrl apiBase p.audio_url) msgs
  else if p.event = some "audio_ready" then
    audioReadyUpdate (resolveAudioUrl apiBase p.audio_url) msgs
  else if p.event = some "audio_error" then audioErrorUpdate p.message msgs
  else msgs

/-- Readiness states of a WebSocket. -/
inductive SockReady where
  | CONNECTING
  | OPEN
  | CLOSING
  | CLOSED
deriving DecidableEq

/-- The component state touched by `sendMessage` and `onmessage`:
the message list, the session identifier and the socket reference
(`none` models `wsRef.current === null`). -/
structure ChatState where
  messages : List Message := []
  sessionId : Option String := none
  socket : Option SockReady := none
deriving DecidableEq

/-- The full `onmessage` handler: a payload that failed JSON parsing is
`none` and the handler returns without touching any state. -/
def onmessage (apiBase : String) (parsed : Option Payload) (s : ChatState) : ChatState :=
  match parsed with
  | none => s
  | some p => { s with messages := onParsed apiBase p s.messages }

/-- The request envelope `{session_id, question}` sent over the socket. -/
structure Envelope where
  session_id : String
  question : String
deriving DecidableEq

/-- `sendMessage` (lines 290-334): if the session id is falsy, the socket is
absent or not `OPEN`, append a connection-lost notice and transmit nothing;
otherwise append the user message and the loading placeholder and transmit
the envelope.  The session identifier is never written. -/
def sendMessage (s : ChatState) (text : String) : ChatState × Option Envelope :=
  if jsTruthy s.sessionId ∧ s.socket = some SockReady.OPEN then
    ({ s with messages := s.messages ++ [mkUserMessage text] ++ [loadingPlaceholder] },
     some { session_id := s.sessionId.getD "", question := text })
  else
    ({ s with messages := s.messages ++ [connLostMsg] }, none)

/-- `maxReconnectAttempts` in `Chat.tsx`. -/
def maxReconnectAttempts : Nat := 5

/-- Connection-lifecycle state: the reconnect counter, the messages, and
whether a socket object exists whose callbacks can still fire (`alive`). -/
structure ConnState where
  reconnectAttempts : Nat := 0
  messages : List Message := []
  alive : Bool := true
deriving DecidableEq

/-- Socket lifecycle callbacks relevant to reconnection. -/
inductive ConnEvent where
  | onopen
  | onclose
deriving DecidableEq

/-- One lifecycle callback.  `onopen` resets the counter (line 47);
`onclose` (lines 204-226) either schedules a reconnect — a fresh socket, so
callbacks keep firing — or, past the ceiling, appends the terminal notice and
creates no new socket, after which no callback can fire (`alive := false`). -/
def connStep (s : ConnState) (e : ConnEvent) : ConnState :=
  if s.alive then
    match e with
    | ConnEvent.onopen => { s with reconnectAttempts := 0 }
    | ConnEvent.onclose =>
      if s.reconnectAttempts < maxReconnectAttempts then
        { s with reconnectAttempts := s.reconnectAttempts + 1 }
      else
        { s with messages := s.messages ++ [terminalMsg], alive := false }
  else s

/-- A run of the connection lifecycle from a state through a list of callbacks. -/
def connRun (s : ConnState) (es : List ConnEvent) : ConnState :=
  es.foldl connStep s

/-- Delivery of a stream of `partial_text` events to the `onmessage` handler. -/
def streamPartials (apiBase : String) (frags : List String)
    (msgs : List Message) : List Message :=
  frags.foldl
    (fun acc t => onParsed apiBase { event := some "partial_text", text := t } acc)
    msgs

/-! ### Helper lemmas -/

lemma getLast?_decomp {α : Type} {l : List α} {a : α} (h : l.getLast? = some a) :
    l = l.dropLast ++ [a] := by
  rcases l.eq_nil_or_concat with rfl | ⟨ys, b, rfl⟩
  · simp at h
  · simp [List.getLast?_concat] at h
    simp [h]

lemma lastIsLoadingWs_concat (l : List Message) (m : Message) :
    lastIsLoadingWs (l ++ [m]) = isLoadingWs m := by
  simp [lastIsLoadingWs, List.getLast?_concat]

/-! ### C7 -/

/-- C7: a socket payload that fails to parse as JSON (modelled as `none`)
leaves the message sequence and every other piece of component state
unchanged. -/
theorem malformed_payload_noop (apiBase : String) (s : ChatState) :
    onmessage apiBase none s = s := rfl

/-! ### C10 -/

/-- C10: when the last message is not a loading websocket message, a `done`
event appends exactly one new finalized websocket bot message whose text is
the answer (JS-falsy answers fall back to the fixed text) and whose audio is
the resolved reference; the rest of the sequence is untouched. -/
theorem done_appends_when_no_loading (apiBase : String)
    (answer audio_url : Option String) (msgs : List Message)
    (h : lastIsLoadingWs msgs = false) :
    onParsed apiBase { event := some "done", answer := answer, audio_url := audio_url } msgs =
      msgs ++ [{ sender := "Bot", text := jsOr answer fallbackAnswer,
                 audio := resolveAudioUrl apiBase audio_url, loading := false,
                 source := some Source.websocket }] := by
  simp [onParsed, jsTruthy, doneUpdate, h]

/-- Witness for C10 at a concrete state and payload. -/
theorem done_appends_when_no_loading_witness :
    onParsed "http://b" { event := some "done", answer := some "Hi there" }
        [mkUserMessage "Hello"] =
      [mkUserMessage "Hello",
       { sender := "Bot", text := "Hi there", audio := none, loading := false,
         source := some Source.websocket }] := by
  have h := done_appends_when_no_loading "http://b" (some "Hi there") none
    [mkUserMessage "Hello"] (by decide)
  simpa [jsOr, resolveAudioUrl] using h

/-! ### C3 -/

/-- C3: whenever the socket is not in the `OPEN` state, `sendMessage` leaves
the session identifier (and the socket) unchanged, appends exactly the
connection-lost error message, and transmits nothing. -/
theorem sendMessage_closed (s : ChatState) (text : String)
    (h : s.socket ≠ some SockReady.OPEN) :
    (sendMessage s text).1.sessionId = s.sessionId ∧
    (sendMessage s text).1.socket = s.socket ∧
    (sendMessage s text).1.messages = s.messages ++ [connLostMsg] ∧
    (sendMessage s text).2 = none := by
  have hg : ¬(jsTruthy s.sessionId ∧ s.socket = some SockReady.OPEN) :=
    fun hc => h hc.2
  simp [sendMessage, hg]

/-- Witness for C3 at a concrete closed-socket state. -/
theorem sendMessage_closed_witness :
    (sendMessage { messages := [], sessionId := some "sid",
                   socket := some SockReady.CLOSED } "hi").1.sessionId = some "sid" ∧
    (sendMessage { messages := [], sessionId := some "sid",
                   socket := some SockReady.CLOSED } "hi").1.messages = [connLostMsg] ∧
    (sendMessage { messages := [], sessionId := some "sid",
                   socket := some SockReady.CLOSED } "hi").2 = none := by
  have h := sendMessage_closed
    { messages := [], sessionId := some "sid", socket := some SockReady.CLOSED }
    "hi" (by decide)
  exact ⟨h.1, h.2.2.1, h.2.2.2⟩

/-! ### C4 -/

/-- C4: with a truthy session identifier and an open socket, `sendMessage`
appends exactly the user message (text = input, source user) followed by the
loading bot placeholder (empty text, loading, source websocket), and
transmits the envelope carrying the session identifier and the question. -/
theorem sendMessage_open (s : ChatState) (text sid : String)
    (hsid : s.sessionId = some sid) (hne : sid ≠ "")
    (hopen : s.socket = some SockReady.OPEN) :
    (sendMessage s text).1.messages =
      s.messages ++ [mkUserMessage text, loadingPlaceholder] ∧
    (sendMessage s text).1.sessionId = s.sessionId ∧
    (sendMessage s text).2 = some { session_id := sid, question := text } := by
  have hts : jsTruthy (some sid) = true := by simp [jsTruthy, hne]
  simp [sendMessage, hsid, hopen, hts]

/-- Witness for C4 at a concrete open-socket state. -/
theorem sendMessage_open_witness :
    (sendMessage { messages := [], sessionId := some "sid",
                   socket := some SockReady.OPEN } "Hello").1.messages =
      [mkUserMessage "Hello", loadingPlaceholder] ∧
    (sendMessage { messages := [], sessionId := some "sid",
                   socket := some SockReady.OPEN } "Hello").2 =
      some { session_id := "sid", question := "Hello" } := by
  have h := sendMessage_open
    { messages := [], sessionId := some "sid", socket := some SockReady.OPEN }
    "Hello" "sid" rfl (by decide) rfl
  exact ⟨h.1, h.2.2⟩

/-! ### C8 -/

/-- C8: when the last message is a loading websocket message, an `error`
payload (truthy `error` field) and an `audio_error` event each replace that
trailing message in place with a finalized error-text bot message, leaving
every earlier message unchanged and appending nothing; when the last message
is not a loading websocket message, both leave the sequence unchanged. -/
theorem error_events_replace_trailing_loading (apiBase : String)
    (msgs : List Message) (e m : String) (he : e ≠ "") :
    (lastIsLoadingWs msgs = true →
      onParsed apiBase { error := some e } msgs =
        msgs.dropLast ++
          [{ sender := "Bot", text := "Error: " ++ e, loading := false,
             source := some Source.websocket }] ∧
      onParsed apiBase { event := some "audio_error", message := m } msgs =
        msgs.dropLast ++
          [{ sender := "Bot", text := "Error generating audio: " ++ m,
             loading := false, source := some Source.websocket }]) ∧
    (lastIsLoadingWs msgs = false →
      onParsed apiBase { error := some e } msgs = msgs ∧
      onParsed apiBase { event := some "audio_error", message := m } msgs = msgs) := by
  have hte : jsTruthy (some e) = true := by simp [jsTruthy, he]
  constructor <;> intro h <;>
    exact ⟨by simp [onParsed, hte, errorUpdate, h],
           by simp [onParsed, jsTruthy, audioErrorUpdate, h]⟩

/-- Witness for C8: both in the replacement case and in the untouched case. -/
theorem error_events_replace_trailing_loading_witness :
    onParsed "http://b" { error := some "boom" } [loadingPlaceholder] =
      [{ sender := "Bot", text := "Error: boom", loading := false,
         source := some Source.websocket }] ∧
    onParsed "http://b" { event := some "audio_error", message := "tts" }
        [mkUserMessage "q"] = [mkUserMessage "q"] := by
  have h1 := (error_events_replace_trailing_loading "http://b" [loadingPlaceholder]
    "boom" "tts" (by decide)).1 (by decide)
  have h2 := (error_events_replace_trailing_loading "http://b" [mkUserMessage "q"]
    "boom" "tts" (by decide)).2 (by decide)
  exact ⟨h1.1, h2.2⟩

/-! ### C2 -/

/-- Lifecycle invariant: while a socket is alive no terminal notice has been
appended; once dead, exactly the one terminal notice has been appended. -/
def ConnOk (ms0 : List Message) (s : ConnState) : Prop :=
  (s.alive = true ∧ s.messages = ms0) ∨
  (s.alive = false ∧ s.messages = ms0 ++ [terminalMsg])

lemma connStep_dead {s : ConnState} (h : s.alive = false) (e : ConnEvent) :
    connStep s e = s := by
  simp [connStep, h]

lemma connRun_dead {s : ConnState} (h : s.alive = false) (es : List ConnEvent) :
    connRun s es = s := by
  induction es with
  | nil => rfl
  | cons e es ih =>
    show connRun (connStep s e) es = s
    rw [connStep_dead h e, ih]

lemma connStep_ok {ms0 : List Message} {s : ConnState} (hs : ConnOk ms0 s)
    (e : ConnEvent) : ConnOk ms0 (connStep s e) := by
  rcases hs with ⟨ha, hm⟩ | ⟨ha, hm⟩
  · cases e with
    | onopen => exact Or.inl ⟨by simp [connStep, ha], by simp [connStep, ha, hm]⟩
    | onclose =>
      by_cases hlt : s.reconnectAttempts < maxReconnectAttempts
      · exact Or.inl ⟨by simp [connStep, ha, hlt], by simp [connStep, ha, hlt, hm]⟩
      · exact Or.inr ⟨by simp [connStep, ha, hlt], by simp [connStep, ha, hlt, hm]⟩
  · rw [connStep_dead ha e]
    exact Or.inr ⟨ha, hm⟩

lemma connRun_ok {ms0 : List Message} {s : ConnState} (hs : ConnOk ms0 s)
    (es : List ConnEvent) : ConnOk ms0 (connRun s es) := by
  induction es generalizing s with
  | nil => exact hs
  | cons e es ih => exact ih (connStep_ok hs e)

/-- C2: in every run of the connection lifecycle from a live state, the
message list either never receives a terminal notice, or receives exactly one
copy of it (appended at the end by the over-the-ceiling `onclose`); and once
the terminal notice has been appended the state is dead and absorbing — no
later callback changes anything, so no further reconnect attempt occurs. -/
theorem reconnect_ceiling_terminal (ms0 : List Message) (a0 : Nat)
    (es es2 : List ConnEvent) :
    ((connRun ⟨a0, ms0, true⟩ es).messages = ms0 ∨
     (connRun ⟨a0, ms0, true⟩ es).messages = ms0 ++ [terminalMsg]) ∧
    ((connRun ⟨a0, ms0, true⟩ es).alive = false →
      (connRun ⟨a0, ms0, true⟩ es).messages = ms0 ++ [terminalMsg] ∧
      connRun (connRun ⟨a0, ms0, true⟩ es) es2 = connRun ⟨a0, ms0, true⟩ es) := by
  have hok : ConnOk ms0 (connRun ⟨a0, ms0, true⟩ es) :=
    connRun_ok (Or.inl ⟨rfl, rfl⟩) es
  constructor
  · rcases hok with ⟨_, hm⟩ | ⟨_, hm⟩
    · exact Or.inl hm
    · exact Or.inr hm
  · intro hdead
    rcases hok with ⟨ha, _⟩ | ⟨_, hm⟩
    · rw [hdead] at ha; cases ha
    · exact ⟨hm, connRun_dead hdead es2⟩

/-- Witness for C2: six `onclose` callbacks exceed the ceiling of five; the
terminal notice is appended once and two further callbacks change nothing. -/
theorem reconnect_ceiling_terminal_witness :
    (connRun ⟨0, [], true⟩ (List.replicate 6 ConnEvent.onclose)).messages =
      [terminalMsg] ∧
    connRun (connRun ⟨0, [], true⟩ (List.replicate 6 ConnEvent.onclose))
        [ConnEvent.onclose, ConnEvent.onopen] =
      connRun ⟨0, [], true⟩ (List.replicate 6 ConnEvent.onclose) := by
  have h := (reconnect_ceiling_terminal [] 0 (List.replicate 6 ConnEvent.onclose)
    [ConnEvent.onclose, ConnEvent.onopen]).2 (by decide)
  exact ⟨h.1, h.2⟩

/-! ### C5 and C6: the audio_ready scan -/

lemma setAudioFirst_all_false {u : Option String} {l : List Message}
    (h : ∀ m ∈ l, isFinalBotWs m = false) : setAudioFirst u l = l := by
  induction l with
  | nil => rfl
  | cons m rest ih =>
    have hm := h m (List.mem_cons_self m rest)
    simp [setAudioFirst, hm]
    exact ih fun x hx => h x (List.mem_cons_of_mem m hx)

lemma setAudioFirst_append_all_false {u : Option String} {l1 : List Message}
    (l2 : List Message) (h : ∀ m ∈ l1, isFinalBotWs m = false) :
    setAudioFirst u (l1 ++ l2) = l1 ++ setAudioFirst u l2 := by
  induction l1 with
  | nil => rfl
  | cons m rest ih =>
    have hm := h m (List.mem_cons_self m rest)
    simp [setAudioFirst, hm]
    exact ih fun x hx => h x (List.mem_cons_of_mem m hx)

/-- C5 (amended): an `audio_ready` event leaves the message sequence
unchanged exactly when it contains no finalized (non-loading) websocket bot
message; a merely loading-free sequence is not enough, because the handler
attaches the reference to the most recent finalized bot message. -/
theorem audioReady_noop_of_no_finalized (apiBase : String) (u : Option String)
    (msgs : List Message) (h : ∀ m ∈ msgs, isFinalBotWs m = false) :
    onParsed apiBase { event := some "audio_ready", audio_url := u } msgs = msgs := by
  have : setAudioFirst (resolveAudioUrl apiBase u) msgs.reverse = msgs.reverse :=
    setAudioFirst_all_false fun m hm => h m (List.mem_reverse.1 hm)
  simp [onParsed, jsTruthy, audioReadyUpdate, this]

/-- Witness for the amended C5 at a concrete sequence with a user message
and a still-loading bot message only. -/
theorem audioReady_noop_of_no_finalized_witness :
    onParsed "http://b" { event := some "audio_ready", audio_url := some "/a.mp3" }
        [mkUserMessage "q", loadingPlaceholder] =
      [mkUserMessage "q", loadingPlaceholder] := by
  exact audioReady_noop_of_no_finalized "http://b" (some "/a.mp3")
    [mkUserMessage "q", loadingPlaceholder] (by decide)

/-- Counterexample to C5 as stated: this sequence contains no loading
(unfinished) message at all, yet `audio_ready` mutates it, attaching the
resolved reference to the finalized bot message. -/
theorem audioReady_counterexample :
    (∀ m ∈ [({ sender := "Bot", text := "hi",
               source := some Source.websocket } : Message)], m.loading = false) ∧
    onParsed "http://b" { event := some "audio_ready", audio_url := some "http://b/a.mp3" }
        [{ sender := "Bot", text := "hi", source := some Source.websocket }] ≠
      [{ sender := "Bot", text := "hi", source := some Source.websocket }] := by
  decide

/-- C6 (amended): an `audio_ready` event attaches the resolved audio
reference to the most recent finalized websocket bot message — regardless of
whether that message already carries an audio reference, overwriting any
existing one — and modifies no other message. -/
theorem audioReady_attaches_most_recent_finalized (apiBase : String)
    (u : Option String) (pre post : List Message) (target : Message)
    (ht : isFinalBotWs target = true) (hp : ∀ m ∈ post, isFinalBotWs m = false) :
    onParsed apiBase { event := some "audio_ready", audio_url := u }
        (pre ++ target :: post) =
      pre ++ { target with audio := resolveAudioUrl apiBase u } :: post := by
  have hrev : (pre ++ target :: post).reverse =
      post.reverse ++ target :: pre.reverse := by
    simp
  have hsplit : setAudioFirst (resolveAudioUrl apiBase u)
      (post.reverse ++ target :: pre.reverse) =
      post.reverse ++ ({ target with audio := resolveAudioUrl apiBase u } :: pre.reverse) := by
    rw [setAudioFirst_append_all_false _ fun m hm => hp m (List.mem_reverse.1 hm)]
    simp [setAudioFirst, ht]
  simp only [onParsed, jsTruthy, audioReadyUpdate]
  rw [hrev, hsplit]
  simp

/-- Witness for the amended C6: the target sits before a user message and a
loading bot message, which the handler skips. -/
theorem audioReady_attaches_most_recent_finalized_witness :
    onParsed "http://b" { event := some "audio_ready", audio_url := some "/a.mp3" }
        [{ sender := "Bot", text := "hi", source := some Source.websocket },
         mkUserMessage "q", loadingPlaceholder] =
      [{ sender := "Bot", text := "hi", audio := some "http://b/a.mp3",
         source := some Source.websocket },
       mkUserMessage "q", loadingPlaceholder] := by
  have h := audioReady_attaches_most_recent_finalized "http://b" (some "/a.mp3")
    [] [mkUserMessage "q", loadingPlaceholder]
    { sender := "Bot", text := "hi", source := some Source.websocket }
    (by decide) (by decide)
  simpa [resolveAudioUrl, jsStartsWith, List.isPrefixOf] using h

/-- Counterexample to C6 as stated: the most recent finalized bot message
lacking an audio reference is the first one, but the handler overwrites the
audio of the last finalized bot message (which already has one) and leaves
the lacking one untouched. -/
theorem audioReady_most_recent_lacking_counterexample :
    onParsed "http://b" { event := some "audio_ready", audio_url := some "http://y" }
        [{ sender := "Bot", text := "one", source := some Source.websocket },
         { sender := "Bot", text := "two", audio := some "http://x",
           source := some Source.websocket }] =
      [{ sender := "Bot", text := "one", source := some Source.websocket },
       { sender := "Bot", text := "two", audio := some "http://y",
         source := some Source.websocket }] ∧
    onParsed "http://b" { event := some "audio_ready", audio_url := some "http://y" }
        [{ sender := "Bot", text := "one", source := some Source.websocket },
         { sender := "Bot", text := "two", audio := some "http://x",
           source := some Source.websocket }] ≠
      [{ sender := "Bot", text := "one", audio := some "http://y",
         source := some Source.websocket },
       { sender := "Bot", text := "two", audio := some "http://x",
         source := some Source.websocket }] := by
  decide

/-! ### C1: streaming and the done event -/

lemma foldl_append_acc (fs : List String) :
    ∀ a : String, fs.foldl (fun r s => r ++ s) a = a ++ fs.foldl (fun r s => r ++ s) "" := by
  induction fs with
  | nil => intro a; simp
  | cons f fs ih =>
    intro a
    simp only [List.foldl_cons]
    rw [ih (a ++ f), ih ("" ++ f)]
    simp [String.append_assoc]

lemma join_cons (f : String) (fs : List String) :
    String.join (f :: fs) = f ++ String.join fs := by
  show (f :: fs).foldl (fun r s => r ++ s) "" = f ++ fs.foldl (fun r s => r ++ s) ""
  simp only [List.foldl_cons]
  rw [foldl_append_acc fs ("" ++ f)]
  simp

lemma onParsed_partial_text (apiBase t : String) (msgs : List Message) :
    onParsed apiBase { event := some "partial_text", text := t } msgs =
      partialTextUpdate t msgs := by
  simp [onParsed, jsTruthy]

lemma streamPartials_loading (apiBase : String) (frags : List String) :
    ∀ (msgs : List Message) (l : Message), msgs.getLast? = some l →
      isLoadingWs l = true →
      (streamPartials apiBase frags msgs).getLast? =
        some { l with text := l.text ++ String.join frags, loading := true } := by
  induction frags with
  | nil =>
    intro msgs l h hl
    obtain ⟨hld, hsrc⟩ : l.loading = true ∧ l.source = some Source.websocket := by
      simpa [isLoadingWs, Bool.and_eq_true] using hl
    have hrec : ({ l with text := l.text ++ String.join [], loading := true } : Message) = l := by
      cases l
      simp_all [String.join]
    rw [show streamPartials apiBase [] msgs = msgs from rfl, hrec, h]
  | cons f fs ih =>
    intro msgs l h hl
    obtain ⟨hld, hsrc⟩ : l.loading = true ∧ l.source = some Source.websocket := by
      simpa [isLoadingWs, Bool.and_eq_true] using hl
    have hstep : onParsed apiBase { event := some "partial_text", text := f } msgs =
        msgs.dropLast ++ [{ l with text := l.text ++ f, loading := true }] := by
      rw [onParsed_partial_text]
      simp [partialTextUpdate, h, hl]
    have hrun : streamPartials apiBase (f :: fs) msgs =
        streamPartials apiBase fs
          (msgs.dropLast ++ [{ l with text := l.text ++ f, loading := true }]) := by
      simp only [streamPartials, List.foldl_cons]
      rw [hstep]
    rw [hrun, ih (msgs.dropLast ++ [{ l with text := l.text ++ f, loading := true }])
      { l with text := l.text ++ f, loading := true }
      (List.getLast?_concat _) (by simp [isLoadingWs, hsrc])]
    simp [join_cons, String.append_assoc]

lemma doneUpdate_getLast? (answer u : Option String) (msgs : List Message) :
    (doneUpdate answer u msgs).getLast? =
      some { sender := "Bot", text := jsOr answer fallbackAnswer, audio := u,
             loading := false, source := some Source.websocket } := by
  by_cases h : lastIsLoadingWs msgs <;> simp [doneUpdate, h, List.getLast?_concat]

/-- C1 (amended): starting from a sequence with no trailing loading websocket
message, a nonempty stream of `partial_text` events keeps the trailing
loading bot message equal to the concatenation of the fragments so far, but
the `done` event then overwrites it: the final text of the trailing bot
message is the done answer when that is present and nonempty, and the fixed
fallback text otherwise — the concatenated fragments are discarded. -/
theorem partials_then_done (apiBase : String) (msgs : List Message)
    (f0 : String) (frags : List String) (answer audio_url : Option String)
    (hlast : lastIsLoadingWs msgs = false) :
    (streamPartials apiBase (f0 :: frags) msgs).getLast?.map Message.text =
      some (String.join (f0 :: frags)) ∧
    (onParsed apiBase { event := some "done", answer := answer, audio_url := audio_url }
        (streamPartials apiBase (f0 :: frags) msgs)).getLast? =
      some { sender := "Bot", text := jsOr answer fallbackAnswer,
             audio := resolveAudioUrl apiBase audio_url, loading := false,
             source := some Source.websocket } := by
  have hstep : onParsed apiBase { event := some "partial_text", text := f0 } msgs =
      msgs ++ [{ sender := "Bot", text := f0, loading := true,
                 source := some Source.websocket }] := by
    rw [onParsed_partial_text]
    unfold partialTextUpdate
    cases hh : msgs.getLast? with
    | none => simp
    | some l =>
      have : isLoadingWs l = false := by
        unfold lastIsLoadingWs at hlast
        rwa [hh] at hlast
      simp [this]
  have hrun : streamPartials apiBase (f0 :: frags) msgs =
      streamPartials apiBase frags
        (msgs ++ [{ sender := "Bot", text := f0, loading := true,
                    source := some Source.websocket }]) := by
    simp only [streamPartials, List.foldl_cons]
    rw [hstep]
  have hlastrun := streamPartials_loading apiBase frags
    (msgs ++ [{ sender := "Bot", text := f0, loading := true,
                source := some Source.websocket }])
    { sender := "Bot", text := f0, loading := true, source := some Source.websocket }
    (List.getLast?_concat _) (by simp [isLoadingWs])
  constructor
  · rw [hrun, hlastrun]
    simp [join_cons]
  · have hdone : onParsed apiBase
        { event := some "done", answer := answer, audio_url := audio_url }
        (streamPartials apiBase (f0 :: frags) msgs) =
        doneUpdate answer (resolveAudioUrl apiBase audio_url)
          (streamPartials apiBase (f0 :: frags) msgs) := by
      simp [onParsed, jsTruthy]
    rw [hdone, doneUpdate_getLast?]

/-- Witness for the amended C1 at a concrete run: two fragments stream in,
then `done` supplies a nonempty answer which becomes the final text. -/
theorem partials_then_done_witness :
    (streamPartials "http://b" ["Hi", " there"] []).getLast?.map Message.text =
      some "Hi there" ∧
    (onParsed "http://b" { event := some "done", answer := some "Hi there!" }
        (streamPartials "http://b" ["Hi", " there"] [])).getLast? =
      some { sender := "Bot", text := "Hi there!", audio := none, loading := false,
             source := some Source.websocket } := by
  have h := partials_then_done "http://b" [] "Hi" [" there"] (some "Hi there!") none
    (by decide)
  exact ⟨h.1, h.2⟩

/-- Counterexample to C1 as stated: one `partial_text` fragment `"Hi"`
followed by a `done` with no answer field leaves the fallback text, not the
concatenation of the fragments. -/
theorem partials_then_done_counterexample :
    (onParsed "http://b" { event := some "done" }
        (streamPartials "http://b" ["Hi"] [])).getLast?.map Message.text =
      some "I couldn't generate an answer." ∧
    (onParsed "http://b" { event := some "done" }
        (streamPartials "http://b" ["Hi"] [])).getLast?.map Message.text ≠
      some (String.join ["Hi"]) := by
  decide

/-! ### C9: the loading-placeholder invariant -/

/-- Does any message of the sequence carry the loading flag? -/
def hasLoading (msgs : List Message) : Bool :=
  msgs.any (fun m => m.loading)

/-- The invariant of the spec's data model: every message before the last is
finalized (so at most one message is loading, and only in last position),
and every loading message is a websocket-sourced bot message. -/
def MsgInv (msgs : List Message) : Prop :=
  (∀ m ∈ msgs.dropLast, m.loading = false) ∧
  (∀ m ∈ msgs, m.loading = true →
    m.sender = "Bot" ∧ m.source = some Source.websocket)

/-- Message sequences reachable from the empty sequence when the appending
operations — `sendMessage` (either branch) and the terminal `onclose`
notice — are only exercised while no loading placeholder is pending;
socket `onmessage` events are unrestricted. -/
inductive GuardedReach (apiBase : String) : List Message → Prop where
  | nil : GuardedReach apiBase []
  | recv (p : Payload) {msgs : List Message} :
      GuardedReach apiBase msgs → GuardedReach apiBase (onParsed apiBase p msgs)
  | sendOk (t : String) {msgs : List Message} :
      GuardedReach apiBase msgs → hasLoading msgs = false →
      GuardedReach apiBase (msgs ++ [mkUserMessage t] ++ [loadingPlaceholder])
  | sendFail {msgs : List Message} :
      GuardedReach apiBase msgs → hasLoading msgs = false →
      GuardedReach apiBase (msgs ++ [connLostMsg])
  | closeTerminal {msgs : List Message} :
      GuardedReach apiBase msgs → hasLoading msgs = false →
      GuardedReach apiBase (msgs ++ [terminalMsg])

/-- Projection of the fields the invariant talks about. -/
def projLSS (m : Message) : Bool × String × Option Source :=
  (m.loading, m.sender, m.source)

lemma setAudioFirst_map_projLSS (u : Option String) (l : List Message) :
    (setAudioFirst u l).map projLSS = l.map projLSS := by
  induction l with
  | nil => rfl
  | cons m rest ih =>
    by_cases h : isFinalBotWs m = true <;> simp [setAudioFirst, h, projLSS, ih]

lemma audioReadyUpdate_map_projLSS (u : Option String) (msgs : List Message) :
    (audioReadyUpdate u msgs).map projLSS = msgs.map projLSS := by
  simp [audioReadyUpdate, setAudioFirst_map_projLSS]

lemma msginv_of_map_projLSS {l1 l2 : List Message}
    (h : l2.map projLSS = l1.map projLSS) (hinv : MsgInv l1) : MsgInv l2 := by
  constructor
  · intro m hm
    have : projLSS m ∈ l1.dropLast.map projLSS := by
      rw [List.map_dropLast, ← h, ← List.map_dropLast]
      exact List.mem_map_of_mem projLSS hm
    obtain ⟨m1, hm1, hproj⟩ := List.mem_map.mp this
    have := hinv.1 m1 hm1
    simp [projLSS, Prod.ext_iff] at hproj
    rw [← hproj.1, this]
  · intro m hm hml
    have : projLSS m ∈ l1.map projLSS := by
      rw [← h]
      exact List.mem_map_of_mem projLSS hm
    obtain ⟨m1, hm1, hproj⟩ := List.mem_map.mp this
    simp [projLSS, Prod.ext_iff] at hproj
    have h1 := hinv.2 m1 hm1 (by rw [hproj.1, hml])
    rw [← hproj.2.1, ← hproj.2.2]
    exact h1

lemma msginv_nil : MsgInv [] := by
  constructor <;> simp

lemma all_nonloading_of_notLast {msgs : List Message} (hinv : MsgInv msgs)
    (h : lastIsLoadingWs msgs = false) : ∀ m ∈ msgs, m.loading = false := by
  intro m hm
  cases hh : msgs.getLast? with
  | none =>
    rw [List.getLast?_eq_none_iff.mp hh] at hm
    cases hm
  | some l =>
    have hm' := hm
    rw [getLast?_decomp hh] at hm'
    rcases List.mem_append.mp hm' with hmem | hmem
    · exact hinv.1 m hmem
    · have hml : m = l := by simpa using hmem
      subst hml
      by_contra hcon
      have hload : m.loading = true := by
        cases hb : m.loading
        · exact absurd hb hcon
        · rfl
      have hsrc := (hinv.2 m hm hload).2
      have : lastIsLoadingWs msgs = true := by
        unfold lastIsLoadingWs
        rw [hh]
        simp [isLoadingWs, hload, hsrc]
      rw [this] at h
      cases h
  
lemma msginv_append_of_all_nonloading {msgs : List Message} {m : Message}
    (hall : ∀ x ∈ msgs, x.loading = false)
    (hm : m.loading = true → m.sender = "Bot" ∧ m.source = some Source.websocket) :
    MsgInv (msgs ++ [m]) := by
  constructor
  · intro x hx
    rw [List.dropLast_concat] at hx
    exact hall x hx
  · intro x hx hxl
    rcases List.mem_append.mp hx with hmem | hmem
    · rw [hall x hmem] at hxl
      cases hxl
    · have : x = m := by simpa using hmem
      subst this
      exact hm hxl

lemma msginv_replaceLast {msgs : List Message} {m : Message}
    (hinv : MsgInv msgs)
    (hm : m.loading = true → m.sender = "Bot" ∧ m.source = some Source.websocket) :
    MsgInv (msgs.dropLast ++ [m]) := by
  constructor
  · intro x hx
    rw [List.dropLast_concat] at hx
    exact hinv.1 x hx
  · intro x hx hxl
    rcases List.mem_append.mp hx with hmem | hmem
    · rw [hinv.1 x hmem] at hxl
      cases hxl
    · have : x = m := by simpa using hmem
      subst this
      exact hm hxl

lemma msginv_errorUpdate (e : String) {msgs : List Message} (hinv : MsgInv msgs) :
    MsgInv (errorUpdate e msgs) := by
  unfold errorUpdate
  by_cases h : lastIsLoadingWs msgs = true
  · cases hh : msgs.getLast? with
    | none => unfold lastIsLoadingWs at h; rw [hh] at h; cases h
    | some l => simp only [h, if_true]; exact msginv_replaceLast hinv (by simp)
  · simp only [Bool.not_eq_true] at h
    simp [h, hinv]

lemma msginv_audioErrorUpdate (e : String) {msgs : List Message} (hinv : MsgInv msgs) :
    MsgInv (audioErrorUpdate e msgs) := by
  unfold audioErrorUpdate
  by_cases h : lastIsLoadingWs msgs = true
  · cases hh : msgs.getLast? with
    | none => unfold lastIsLoadingWs at h; rw [hh] at h; cases h
    | some l => simp only [h, if_true]; exact msginv_replaceLast hinv (by simp)
  · simp only [Bool.not_eq_true] at h
    simp [h, hinv]

lemma msginv_partialTextUpdate (t : String) {msgs : List Message}
    (hinv : MsgInv msgs) : MsgInv (partialTextUpdate t msgs) := by
  unfold partialTextUpdate
  cases hh : msgs.getLast? with
  | none =>
    have : msgs = [] := List.getLast?_eq_none_iff.mp hh
    subst this
    exact msginv_append_of_all_nonloading (by simp) (by simp)
  | some l =>
    by_cases hl : isLoadingWs l = true
    · simp only [hl, if_true]
      refine msginv_replaceLast hinv fun _ => ?_
      obtain ⟨hlload, hlsrc⟩ : l.loading = true ∧ l.source = some Source.websocket := by
        simpa [isLoadingWs, Bool.and_eq_true] using hl
      have hmem : l ∈ msgs := by
        rw [getLast?_decomp hh]
        simp
      have := hinv.2 l hmem hlload
      simpa using this
    · simp only [Bool.not_eq_true] at hl
      simp only [hl, Bool.false_eq_true, if_false]
      refine msginv_append_of_all_nonloading ?_ (by simp)
      refine all_nonloading_of_notLast hinv ?_
      unfold lastIsLoadingWs
      rw [hh]
      exact hl

lemma msginv_doneUpdate (answer u : Option String) {msgs : List Message}
    (hinv : MsgInv msgs) : MsgInv (doneUpdate answer u msgs) := by
  unfold doneUpdate
  by_cases h : lastIsLoadingWs msgs = true
  · cases hh : msgs.getLast? with
    | none => unfold lastIsLoadingWs at h; rw [hh] at h; cases h
    | some l => simp only [h, if_true]; exact msginv_replaceLast hinv (by simp)
  · simp only [Bool.not_eq_true] at h
    simp only [h, Bool.false_eq_true, if_false]
    exact msginv_append_of_all_nonloading (all_nonloading_of_notLast hinv h) (by simp)

lemma msginv_onParsed (apiBase : String) (p : Payload) {msgs : List Message}
    (hinv : MsgInv msgs) : MsgInv (onParsed apiBase p msgs) := by
  unfold onParsed
  by_cases h1 : jsTruthy p.error = true
  · simpa [h1] using msginv_errorUpdate (p.error.getD "") hinv
  · simp only [Bool.not_eq_true] at h1
    simp only [h1, Bool.false_eq_true, if_false]
    by_cases h2 : p.event = some "processing"
    · simpa [h2] using hinv
    · simp only [h2, if_false]
      by_cases h3 : p.event = some "partial_text"
      · simpa [h3] using msginv_partialTextUpdate p.text hinv
      · simp only [h3, if_false]
        by_cases h4 : p.event = some "done"
        · simpa [h4] using
            msginv_doneUpdate p.answer (resolveAudioUrl apiBase p.audio_url) hinv
        · simp only [h4, if_false]
          by_cases h5 : p.event = some "audio_ready"
          · simp only [h5, if_true]
            exact msginv_of_map_projLSS (audioReadyUpdate_map_projLSS _ msgs) hinv
          · simp only [h5, if_false]
            by_cases h6 : p.event = some "audio_error"
            · simpa [h6] using msginv_audioErrorUpdate p.message hinv
            · simpa [h6] using hinv

/-- C9 (amended): along every run in which `sendMessage` and the terminal
connection notice occur only while no loading placeholder is pending, every
message before the last is finalized — so at most one message is loading,
any loading message is the trailing element — and every loading message is a
websocket-sourced bot message.  (Unrestricted interleaving violates the
original claim: see the double-send counterexample.) -/
lemma all_nonloading_of_hasLoading_false {msgs : List Message}
    (hnl : hasLoading msgs = false) : ∀ x ∈ msgs, x.loading = false := by
  intro x hx
  simpa using List.any_eq_false.mp hnl x hx

lemma msginv_sendOk_append {msgs : List Message}
    (hnl : hasLoading msgs = false) (t : String) :
    MsgInv (msgs ++ [mkUserMessage t] ++ [loadingPlaceholder]) := by
  have hall : ∀ x ∈ msgs ++ [mkUserMessage t], x.loading = false := by
    intro x hx
    rcases List.mem_append.mp hx with hmem | hmem
    · exact all_nonloading_of_hasLoading_false hnl x hmem
    · have : x = mkUserMessage t := by simpa using hmem
      subst this
      rfl
  exact msginv_append_of_all_nonloading hall (by simp [loadingPlaceholder])

theorem loading_invariant (apiBase : String) (msgs : List Message)
    (h : GuardedReach apiBase msgs) : MsgInv msgs := by
  induction h with
  | nil => exact msginv_nil
  | recv p _ ih => exact msginv_onParsed apiBase p ih
  | sendOk t _ hnl ih => exact msginv_sendOk_append hnl t
  | sendFail _ hnl ih =>
    exact msginv_append_of_all_nonloading
      (all_nonloading_of_hasLoading_false hnl) (by simp [connLostMsg])
  | closeTerminal _ hnl ih =>
    exact msginv_append_of_all_nonloading
      (all_nonloading_of_hasLoading_false hnl) (by simp [terminalMsg])

/-- Witness for the amended C9: a guarded send followed by a full
stream-and-finalize exchange keeps the invariant. -/
theorem loading_invariant_witness :
    MsgInv (onParsed "http://b" { event := some "done", answer := some "Hi" }
      ([] ++ [mkUserMessage "q"] ++ [loadingPlaceholder])) := by
  exact loading_invariant "http://b" _
    (GuardedReach.recv _ (GuardedReach.sendOk "q" GuardedReach.nil (by decide)))

/-- Counterexample to C9 as stated: two `sendMessage` calls on an open
socket — a reachable interleaving — leave two loading messages, and the
first of them is not the last element of the sequence. -/
theorem double_send_counterexample :
    ((sendMessage
        ((sendMessage
            { messages := [], sessionId := some "sid",
              socket := some SockReady.OPEN } "a").1) "b").1.messages.countP
      (fun m => m.loading)) = 2 ∧
    ((sendMessage
        ((sendMessage
            { messages := [], sessionId := some "sid",
              socket := some SockReady.OPEN } "a").1) "b").1.messages.dropLast.any
      (fun m => m.loading)) = true := by
  decide
